import Mathlib

/-!
Shallow embedding of the `reasonance` discussion-session core:
the argument-graph construction pipeline (`argument_mapper.py`),
the session entity (`models.py`), the turn-submission endpoints
(`api.py`), and the session registry / broadcast hub
(`session_manager.py`).

Timestamps (Python `datetime.now()`) are threaded as explicit
arguments; machine floats are modelled as exact rationals; duck-typed
classifier payloads are modelled as partially-defined records whose
fields may be absent or malformed; exceptions are modelled with
`Except`.
-/

namespace Reasonance

/-! ### types.py -/

/-- `ArgumentType` enum from `types.py`: claim | support | counter | response. -/
inductive ArgumentType where
  | claim
  | support
  | counter
  | response
deriving DecidableEq

/-- The string value of each enum member (`ArgumentType(str, Enum)`). -/
def ArgumentType.value : ArgumentType → String
  | .claim => "claim"
  | .support => "support"
  | .counter => "counter"
  | .response => "response"

/-- `ArgumentType(s)` construction from a string: succeeds exactly on the
four recognized values, otherwise raises (modelled as `none`). -/
def argumentTypeOfString (s : String) : Option ArgumentType :=
  if s = "claim" then some .claim
  else if s = "support" then some .support
  else if s = "counter" then some .counter
  else if s = "response" then some .response
  else none

/-- `ArgumentNode` dataclass from `types.py` (the `position` field is never
set by the pipeline and is omitted; `timestamp` defaults to the creation
instant, passed explicitly here). -/
structure ArgumentNode where
  turn_id : Int
  type : ArgumentType
  summary : String
  speaker : String
  topic : Option String
  timestamp : String
deriving DecidableEq

/-- `ArgumentEdge` dataclass from `types.py`. -/
structure ArgumentEdge where
  source_id : Int
  target_id : Int
  type : ArgumentType
  timestamp : String
deriving DecidableEq

/-! ### argument_mapper.py: graph store state

`self.nodes` is a Python dict keyed by turn id (insertion-ordered,
overwrite-in-place); `self.edges` is a list. -/

/-- Insertion-ordered dict membership: `k in d`. -/
def dictMem (k : Int) (d : List (Int × ArgumentNode)) : Bool :=
  d.any (fun kv => kv.1 = k)

/-- Insertion-ordered dict assignment `d[k] = v`: overwrite in place if the
key exists, else append. -/
def dictInsert (k : Int) (v : ArgumentNode) (d : List (Int × ArgumentNode)) :
    List (Int × ArgumentNode) :=
  if dictMem k d then d.map (fun kv => if kv.1 = k then (k, v) else kv)
  else d ++ [(k, v)]

/-- The mutable state of `ArgumentMapper`: `nodes` dict and `edges` list.
`confidence_threshold` is the constant 0.5 and is logging-only. -/
structure ArgumentMapper where
  nodes : List (Int × ArgumentNode)
  edges : List ArgumentEdge
deriving DecidableEq

/-- A fresh `ArgumentMapper()` . -/
def initMapper : ArgumentMapper := { nodes := [], edges := [] }

/-! ### argument_mapper.py: duck-typed classifier payload

The external reasoning call returns a JSON object whose fields may be
absent or of the wrong runtime type.  Only the shapes the pipeline
distinguishes are modelled: `confidence` is either a number or a value
on which `float()` raises; `targets` is either a list of ints or a
non-list value. -/

/-- Runtime value found under the `confidence` key. -/
inductive ConfVal where
  | num (q : ℚ)
  | malformed
deriving DecidableEq

/-- Runtime value found under the `targets` key. -/
inductive TargetsVal where
  | list (l : List Int)
  | notList
deriving DecidableEq

/-- The parsed classifier response dict (each field possibly absent). -/
structure RawAnalysis where
  typeField : Option String
  summaryField : Option String
  targetsField : Option TargetsVal
  topicField : Option String
  confidenceField : Option ConfVal
deriving DecidableEq

/-- `float(analysis.get("confidence", 0))`: absent key defaults to 0;
a malformed value raises (`Except.error`). -/
def parseConfidence : Option ConfVal → Except Unit ℚ
  | none => .ok 0
  | some (.num q) => .ok q
  | some .malformed => .error ()

/-- `[t.value for t in ArgumentType]`. -/
def argumentTypeValues : List String :=
  ["claim", "support", "counter", "response"]

/-- `"targets" in analysis` with a non-list value: the branch of
`_validate_analysis` that penalizes.  An absent key defaults to `[]`,
which is a list, so it is not penalized. -/
def targetsNotList (a : RawAnalysis) : Bool :=
  match a.targetsField with
  | some .notList => true
  | _ => false

/-- `"type" not in analysis or analysis["type"] not in [t.value ...]`. -/
def typeInvalid (a : RawAnalysis) : Bool :=
  match a.typeField with
  | none => true
  | some t => ¬ argumentTypeValues.contains t

/-- `ArgumentMapper._validate_analysis`: reads the confidence as a float
(raising on a malformed value), coerces a non-list `targets` to `[]`
with a ×0.8 penalty, then coerces a missing/unrecognized `type` to
`"claim"` with a further ×0.8 penalty; returns the final confidence and
the (mutated-in-place) analysis dict.  The low-confidence threshold
check only logs. -/
def validate_analysis (a : RawAnalysis) : Except Unit (ℚ × RawAnalysis) :=
  match parseConfidence a.confidenceField with
  | .error e => .error e
  | .ok c0 =>
      let p1 :=
        if targetsNotList a then
          (c0 * (0.8 : ℚ), { a with targetsField := some (.list []) })
        else (c0, a)
      let p2 :=
        if typeInvalid p1.2 then
          (p1.1 * (0.8 : ℚ), { p1.2 with typeField := some "claim" })
        else p1
      .ok p2

/-- `analysis.get("targets", [])` read as the list of target turn ids
(after validation this is always a well-formed list). -/
def targetsOf (a : RawAnalysis) : List Int :=
  match a.targetsField with
  | some (.list l) => l
  | _ => []

/-- `ArgumentMapper._add_node_and_edges`: store the node under its turn id
first, then for each target id create an edge only if the target id is a
key of the (just-updated) nodes dict; missing targets are silently
skipped. -/
def add_node_and_edges (m : ArgumentMapper) (node : ArgumentNode)
    (targets : List Int) (now : String) : ArgumentMapper :=
  let nodes1 := dictInsert node.turn_id node m.nodes
  let newEdges := targets.filterMap (fun target_id =>
    if dictMem target_id nodes1 then
      some { source_id := node.turn_id, target_id := target_id,
             type := node.type, timestamp := now }
    else none)
  { nodes := nodes1, edges := m.edges ++ newEdges }

/-- The summary used when the classifier supplies none, and by the
fallback node: `message[:100] + "..."`. -/
def truncatedSummary (message : String) : String :=
  message.take 100 ++ "..."

/-- `ArgumentMapper._create_fallback_node`: a type-`claim` node whose
summary is the truncated message; stored in the nodes dict; no edges
touched. -/
def create_fallback_node (m : ArgumentMapper) (turn_id : Int)
    (message speaker : String) (now : String) : ArgumentMapper × ArgumentNode :=
  let fallback_node : ArgumentNode :=
    { turn_id := turn_id, type := .claim, summary := truncatedSummary message,
      speaker := speaker, topic := none, timestamp := now }
  ({ m with nodes := dictInsert turn_id fallback_node m.nodes }, fallback_node)

/-- `ArgumentMapper.analyze_message`.  The `callResult` argument is the
outcome of the `await call_claude(...)` expression: `.ok` with the dict
it returned (the in-repo `call_claude` always returns one — see its
embedding below — so the composed pipeline `analyze_from_provider`
always passes `.ok`), `.error` if that expression were to raise.  Any
exception inside the `try` block — `_validate_analysis` raising while
reading the confidence, or the `ArgumentType(...)` conversion raising —
lands in the `except` branch, which returns the fallback node with
confidence 0.0. -/
def analyze_message (m : ArgumentMapper) (turn_id : Int)
    (message speaker : String) (callResult : Except Unit RawAnalysis)
    (now : String) : ArgumentMapper × ArgumentNode × ℚ :=
  match callResult with
  | .error _ =>
      let (m1, node) := create_fallback_node m turn_id message speaker now
      (m1, node, 0)
  | .ok analysis =>
      match validate_analysis analysis with
      | .error _ =>
          let (m1, node) := create_fallback_node m turn_id message speaker now
          (m1, node, 0)
      | .ok (confidence, a1) =>
          match argumentTypeOfString ((a1.typeField).getD "claim") with
          | none =>
              let (m1, node) := create_fallback_node m turn_id message speaker now
              (m1, node, 0)
          | some ty =>
              let node : ArgumentNode :=
                { turn_id := turn_id, type := ty,
                  summary := (a1.summaryField).getD (truncatedSummary message),
                  speaker := speaker, topic := a1.topicField, timestamp := now }
              let m1 := add_node_and_edges m node (targetsOf a1) now
              (m1, node, confidence)

/-! ### claude_client.py

`call_claude` never raises: it catches `json.JSONDecodeError` from
parsing the response text and every other exception from the API
interaction, returning a fixed default payload dict in each case. -/

/-- What happened inside `call_claude` before its own `except` clauses:
the response text parsed as a JSON object, or `json.loads` raised
`JSONDecodeError`, or some other exception occurred (API error, missing
content block, ...). -/
inductive ProviderResult where
  | parsed (a : RawAnalysis)
  | parseFailure
  | apiFailure
deriving DecidableEq

/-- The summary string of the JSON-decode-failure default payload; its
apostrophe (U+0027, between `Claude` and `s`) is written by code
point. -/
def parseFailureSummary : String :=
  "Failed to parse Claude" ++ String.singleton (Char.ofNat 39) ++ "s response"

/-- The summary string of the generic-failure default payload. -/
def apiFailureSummary : String := "Failed to analyze message"

/-- The default dict `call_claude` returns when `json.loads` raises:
type `claim`, empty targets, a fixed summary, no confidence or topic
keys. -/
def parseFailureDict : RawAnalysis :=
  { typeField := some "claim", summaryField := some parseFailureSummary,
    targetsField := some (.list []), topicField := none,
    confidenceField := none }

/-- The default dict `call_claude` returns on any other exception. -/
def apiFailureDict : RawAnalysis :=
  { typeField := some "claim", summaryField := some apiFailureSummary,
    targetsField := some (.list []), topicField := none,
    confidenceField := none }

/-- `call_claude`: a total function of the provider interaction outcome
— failures are swallowed and mapped to the default payloads, never
re-raised. -/
def call_claude : ProviderResult → RawAnalysis
  | .parsed a => a
  | .parseFailure => parseFailureDict
  | .apiFailure => apiFailureDict

/-- The classification pipeline as the program composes it, with the
in-repo `call_claude` wrapper included: since `call_claude` never
raises, `analyze_message` always receives `.ok`. -/
def analyze_from_provider (m : ArgumentMapper) (turn_id : Int)
    (message speaker : String) (pr : ProviderResult) (now : String) :
    ArgumentMapper × ArgumentNode × ℚ :=
  analyze_message m turn_id message speaker (.ok (call_claude pr)) now

/-! ### config.py -/

/-- `Config.INACTIVE_SESSION_TIMEOUT` (minutes). -/
def INACTIVE_SESSION_TIMEOUT : ℚ := 5

/-! ### models.py: the Session entity -/

/-- One transcript entry as built by `send_message` / `upload_audio`
(`{"turn_id": ..., "speaker": ..., "transcript": ..., "timestamp": ...}`). -/
structure Transcript where
  turn_id : Nat
  speaker : String
  text : String
  timestamp : String
deriving DecidableEq

/-- One anchor dict as built by `Session.add_anchor`. -/
structure Anchor where
  position : Int
  length : Int
  word : String
  turnId : Int
  userId : String
  timestamp : String
deriving DecidableEq

/-- The `AnchorData` request model of `api.py` (pydantic already enforces
`position ≥ 0`, `length > 0`, `turnId ≥ 0`; those bounds are shape checks
on the request, not graph lookups). -/
structure AnchorData where
  position : Int
  length : Int
  word : String
  turnId : Int
  userId : String
deriving DecidableEq

/-- The mutable state of a `Session` (`models.py`), restricted to the
fields the claims touch.  Wall-clock instants are rationals (seconds). -/
structure Session where
  last_turn_id : Nat
  transcripts : List Transcript
  anchors : List Anchor
  participants : List String
  connected_clients : Int
  last_activity : ℚ
  argument_mapper : ArgumentMapper
deriving DecidableEq

/-- `Session.__init__`: empty transcript, `last_turn_id = 0`, fresh mapper. -/
def initSession (now : ℚ) : Session :=
  { last_turn_id := 0, transcripts := [], anchors := [], participants := [],
    connected_clients := 0, last_activity := now, argument_mapper := initMapper }

/-- `Session.is_inactive`: zero connected clients, zero participants, and
more than `INACTIVE_SESSION_TIMEOUT * 60` seconds since last activity. -/
def Session.is_inactive (s : Session) (now : ℚ) : Bool :=
  decide (s.connected_clients ≤ 0) && (s.participants.length == 0) &&
    decide (now - s.last_activity > INACTIVE_SESSION_TIMEOUT * 60)

/-- The stamped anchor dict built inside `Session.add_anchor`. -/
def stampedAnchor (d : AnchorData) (now : String) : Anchor :=
  { position := d.position, length := d.length, word := d.word,
    turnId := d.turnId, userId := d.userId, timestamp := now }

/-- `Session.add_anchor`: builds the stamped anchor and appends it to the
anchor list, returning it.  (No lookup of the target turn happens.) -/
def Session.add_anchor (s : Session) (d : AnchorData) (now : String) :
    Session × Anchor :=
  let new_anchor := stampedAnchor d now
  ({ s with anchors := s.anchors ++ [new_anchor] }, new_anchor)

/-- Does any transcript entry of `s` carry turn id `turnId`? -/
def anchorTurnExists (s : Session) (turnId : Int) : Bool :=
  s.transcripts.any (fun t => (t.turn_id : Int) == turnId)

/-! ### api.py: turn submission

Both `send_message` (api.py 390-399) and `upload_audio` (api.py 668-677)
allocate the turn id the same way:
`turn_id = session.last_turn_id + 1`, append the transcript dict, set
`session.last_turn_id = turn_id`. -/

/-- The turn-allocation step shared by `send_message` and `upload_audio`. -/
def appendTurn (s : Session) (speaker text : String) (now : String) :
    Session × Nat :=
  let turn_id := s.last_turn_id + 1
  ({ s with
      transcripts := s.transcripts ++
        [{ turn_id := turn_id, speaker := speaker, text := text, timestamp := now }],
      last_turn_id := turn_id },
   turn_id)

/-- A sequence of turn submissions `(speaker, text, timestamp)` applied in
call order. -/
def runSubmissions (subs : List (String × String × String)) (s : Session) :
    Session :=
  subs.foldl (fun st sub => (appendTurn st sub.1 sub.2.1 sub.2.2).1) s

/-! ### session_manager.py -/

/-- An event payload: the top-level JSON dict, abstracted to an
association list (serialization is an excluded collaborator). -/
abbrev EventData := List (String × String)

/-- A subscriber queue: the ordered messages it has received. -/
abbrev ClientQueue := List EventData

/-- The mutable state of `SessionManager`, restricted to the fields the
claims touch: the insertion-ordered live-session dict, the per-session
queue registry, and the archive directory (keyed by session id). -/
structure SessionManager where
  active_sessions : List (String × Session)
  session_queues : String → Option (List ClientQueue)
  archives : String → Option Session

/-- Dict lookup on the live-session list (first entry with the key). -/
def lookupSession : List (String × Session) → String → Option Session
  | [], _ => none
  | kv :: tl, k => if kv.1 = k then some kv.2 else lookupSession tl k

/-- `del d[k]` on the live-session list. -/
def dictEraseSession (k : String) (d : List (String × Session)) :
    List (String × Session) :=
  d.filter (fun kv => kv.1 != k)

/-- `SessionManager.add_client_queue`: registers a fresh empty queue at
the end of the topic subscriber list (so list order is subscription
order). -/
def add_client_queue (mgr : SessionManager) (session_id : String) :
    SessionManager :=
  let existing := (mgr.session_queues session_id).getD []
  { mgr with session_queues := fun t =>
      if t = session_id then some (existing ++ [[]])
      else mgr.session_queues t }

/-- The top-level timestamp strip performed inside
`broadcast_to_session` (`del data["timestamp"]`). -/
def stripTimestamp (data : EventData) : EventData :=
  data.filter (fun kv => kv.1 != "timestamp")

/-- `SessionManager.broadcast_to_session`: if the topic is registered,
put one copy of the (normalized) message into every subscriber queue, in
list order; an unregistered topic is a silent no-op. -/
def broadcast_to_session (mgr : SessionManager) (session_id : String)
    (data : EventData) : SessionManager :=
  match mgr.session_queues session_id with
  | none => mgr
  | some queues =>
      let message := stripTimestamp data
      { mgr with session_queues := fun t =>
          if t = session_id then some (queues.map (fun q => q ++ [message]))
          else mgr.session_queues t }

/-- `SessionManager.remove_session`: if the id is registered, run
`session.archive()` (a snapshot write, which may raise — `archiveOk`
models its outcome), then delete the session from the live dict and
delete its queue-registry entry.  Nothing is put into the dropped
queues; the consumers still hold them, so their exact contents at drop
time are returned alongside the new state.  An unregistered id is a
silent no-op. -/
def remove_session (mgr : SessionManager) (session_id : String)
    (archiveOk : Bool) : Except Unit (SessionManager × List ClientQueue) :=
  match lookupSession mgr.active_sessions session_id with
  | none => .ok (mgr, [])
  | some sess =>
      if archiveOk then
        .ok ({ active_sessions := dictEraseSession session_id mgr.active_sessions,
               session_queues := fun t =>
                 if t = session_id then none else mgr.session_queues t,
               archives := fun t =>
                 if t = session_id then some sess else mgr.archives t },
             (mgr.session_queues session_id).getD [])
      else .error ()

/-- The for-loop body of `SessionManager.cleanup_inactive_sessions`,
iterating over the snapshot `list(self.active_sessions.items())`.  The
`try`/`except` wraps the whole loop: an exception raised while removing
one session aborts the remaining iterations of that tick (it is logged,
and the `while` loop survives to the next tick). -/
def cleanupSweep (archiveOk : String → Bool) (now : ℚ) :
    List (String × Session) → SessionManager → SessionManager
  | [], mgr => mgr
  | (session_id, sess) :: rest, mgr =>
      if sess.is_inactive now then
        match remove_session mgr session_id (archiveOk session_id) with
        | .ok r => cleanupSweep archiveOk now rest r.1
        | .error _ => mgr
      else cleanupSweep archiveOk now rest mgr

/-- One tick of `cleanup_inactive_sessions`. -/
def cleanup_tick (archiveOk : String → Bool) (now : ℚ)
    (mgr : SessionManager) : SessionManager :=
  cleanupSweep archiveOk now mgr.active_sessions mgr

/-! ### Dictionary lemmas for the nodes map -/

theorem dictMem_iff (k : Int) (d : List (Int × ArgumentNode)) :
    dictMem k d = true ↔ ∃ kv ∈ d, kv.1 = k := by
  simp [dictMem]

theorem dictMem_dictInsert_self (k : Int) (v : ArgumentNode)
    (d : List (Int × ArgumentNode)) :
    dictMem k (dictInsert k v d) = true := by
  unfold dictInsert
  by_cases h : dictMem k d
  · rw [if_pos h, dictMem_iff]
    obtain ⟨kv, hmem, hk⟩ := (dictMem_iff k d).mp h
    exact ⟨(k, v), List.mem_map.mpr ⟨kv, hmem, by simp [hk]⟩, rfl⟩
  · rw [if_neg h, dictMem_iff]
    exact ⟨(k, v), by simp, rfl⟩

theorem dictMem_dictInsert_of_mem (a k : Int) (v : ArgumentNode)
    (d : List (Int × ArgumentNode)) (h : dictMem a d = true) :
    dictMem a (dictInsert k v d) = true := by
  obtain ⟨kv, hmem, hk⟩ := (dictMem_iff a d).mp h
  unfold dictInsert
  by_cases hkd : dictMem k d
  · rw [if_pos hkd, dictMem_iff]
    by_cases hek : kv.1 = k
    · exact ⟨(k, v), List.mem_map.mpr ⟨kv, hmem, by simp [hek]⟩, by rw [← hk, hek]⟩
    · exact ⟨kv, List.mem_map.mpr ⟨kv, hmem, by simp [hek]⟩, hk⟩
  · rw [if_neg hkd, dictMem_iff]
    exact ⟨kv, List.mem_append_left _ hmem, hk⟩

/-! ### Claim theorems -/

/-- The behavior C1 claims, stated over the pipeline as the program
composes it (`call_claude` included): whichever step fails — the
external call, the parsing of its response, or the validation — the
returned node has type `claim` and a summary equal to the truncated
prefix of the raw message, confidence is 0.0, and no edge is appended. -/
def failureGivesTruncatedFallback : Prop :=
  ∀ (m : ArgumentMapper) (turn_id : Int) (message speaker now : String)
    (pr : ProviderResult),
    (pr = .apiFailure ∨ pr = .parseFailure ∨
        ∃ a, pr = .parsed a ∧ validate_analysis a = .error ()) →
    (analyze_from_provider m turn_id message speaker pr now).2.1.type
        = .claim ∧
    (analyze_from_provider m turn_id message speaker pr now).2.1.summary
        = truncatedSummary message ∧
    (analyze_from_provider m turn_id message speaker pr now).2.2 = 0 ∧
    (analyze_from_provider m turn_id message speaker pr now).1.edges
        = m.edges

set_option maxRecDepth 8000 in
/-- C1 counterexample: on an external-call failure, `call_claude`
swallows the exception and returns its default dict, which flows down
the success path of `analyze_message`; the resulting summary is the
fixed string `Failed to analyze message`, not the truncated prefix of
the raw message, refuting the claimed summary. -/
theorem C1_summary_counterexample : ¬ failureGivesTruncatedFallback := by
  intro h
  have h2 := (h initMapper 3 "hello world" "alice" "t0" .apiFailure
    (Or.inl rfl)).2.1
  have h3 : (analyze_from_provider initMapper 3 "hello world" "alice"
      .apiFailure "t0").2.1.summary = "Failed to analyze message" := rfl
  rw [h3] at h2
  exact absurd h2 (by decide)

set_option maxRecDepth 8000 in
/-- C1 (amended): every failing pipeline step yields a type-`claim`
node with confidence 0.0 and no edge appended, and no exception reaches
the caller (the embedded pipeline is total); but the summary depends on
the failing step: an external-call failure and a response-parse failure
are swallowed inside `call_claude` and surface through the normal path
as the fixed strings `Failed to analyze message` and
`Failed to parse Claude(U+0027)s response` respectively, while only a
validation failure reaches `_create_fallback_node` and its
truncated-message summary `message[:100] + "..."`. -/
theorem C1_failure_behavior (m : ArgumentMapper) (turn_id : Int)
    (message speaker now : String) :
    ((analyze_from_provider m turn_id message speaker .apiFailure now).2.1.type
        = .claim ∧
     (analyze_from_provider m turn_id message speaker .apiFailure now).2.1.summary
        = apiFailureSummary ∧
     (analyze_from_provider m turn_id message speaker .apiFailure now).2.2 = 0 ∧
     (analyze_from_provider m turn_id message speaker .apiFailure now).1.edges
        = m.edges) ∧
    ((analyze_from_provider m turn_id message speaker .parseFailure now).2.1.type
        = .claim ∧
     (analyze_from_provider m turn_id message speaker .parseFailure now).2.1.summary
        = parseFailureSummary ∧
     (analyze_from_provider m turn_id message speaker .parseFailure now).2.2 = 0 ∧
     (analyze_from_provider m turn_id message speaker .parseFailure now).1.edges
        = m.edges) ∧
    (∀ a, validate_analysis a = .error () →
      (analyze_from_provider m turn_id message speaker (.parsed a) now).2.1.type
          = .claim ∧
      (analyze_from_provider m turn_id message speaker (.parsed a) now).2.1.summary
          = truncatedSummary message ∧
      (analyze_from_provider m turn_id message speaker (.parsed a) now).2.2
          = 0 ∧
      (analyze_from_provider m turn_id message speaker (.parsed a) now).1.edges
          = m.edges) := by
  refine ⟨⟨rfl, rfl, rfl, ?_⟩, ⟨rfl, rfl, rfl, ?_⟩, ?_⟩
  · show m.edges ++ [] = m.edges
    simp
  · show m.edges ++ [] = m.edges
    simp
  · intro a ha
    refine ⟨?_, ?_, ?_, ?_⟩ <;>
      simp [analyze_from_provider, call_claude, analyze_message, ha,
        create_fallback_node, truncatedSummary]

/-- A response whose confidence value makes `float()` raise, driving
the validation-failure leg of the C1 witness. -/
def rawBadConf : RawAnalysis :=
  { typeField := some "claim", summaryField := none, targetsField := none,
    topicField := none, confidenceField := some .malformed }

/-- Witness for C1 (amended): the external-call-failure leg and the
validation-failure leg at concrete inputs. -/
theorem C1_failure_behavior_witness :
    ((analyze_from_provider initMapper 3 "hello world" "alice"
        .apiFailure "t0").2.1.type = .claim ∧
     (analyze_from_provider initMapper 3 "hello world" "alice"
        .apiFailure "t0").2.1.summary = apiFailureSummary ∧
     (analyze_from_provider initMapper 3 "hello world" "alice"
        .apiFailure "t0").2.2 = 0 ∧
     (analyze_from_provider initMapper 3 "hello world" "alice"
        .apiFailure "t0").1.edges = initMapper.edges) ∧
    ((analyze_from_provider initMapper 3 "hello world" "alice"
        (.parsed rawBadConf) "t0").2.1.type = .claim ∧
     (analyze_from_provider initMapper 3 "hello world" "alice"
        (.parsed rawBadConf) "t0").2.1.summary
        = truncatedSummary "hello world" ∧
     (analyze_from_provider initMapper 3 "hello world" "alice"
        (.parsed rawBadConf) "t0").2.2 = 0 ∧
     (analyze_from_provider initMapper 3 "hello world" "alice"
        (.parsed rawBadConf) "t0").1.edges = initMapper.edges) :=
  ⟨(C1_failure_behavior initMapper 3 "hello world" "alice" "t0").1,
   (C1_failure_behavior initMapper 3 "hello world" "alice" "t0").2.2
     rawBadConf rfl⟩

/-- C8: the fallback path is deterministic in the turn id, message and
speaker: two invocations (from any two mapper states, at any two
instants) produce nodes agreeing on turn id, type (`claim`), summary,
speaker and topic. -/
theorem C8_fallback_deterministic_content
    (m1 m2 : ArgumentMapper) (turn_id : Int) (message speaker : String)
    (now1 now2 : String) :
    (create_fallback_node m1 turn_id message speaker now1).2.turn_id
      = (create_fallback_node m2 turn_id message speaker now2).2.turn_id ∧
    (create_fallback_node m1 turn_id message speaker now1).2.type = .claim ∧
    (create_fallback_node m2 turn_id message speaker now2).2.type = .claim ∧
    (create_fallback_node m1 turn_id message speaker now1).2.summary
      = (create_fallback_node m2 turn_id message speaker now2).2.summary ∧
    (create_fallback_node m1 turn_id message speaker now1).2.speaker
      = (create_fallback_node m2 turn_id message speaker now2).2.speaker ∧
    (create_fallback_node m1 turn_id message speaker now1).2.topic
      = (create_fallback_node m2 turn_id message speaker now2).2.topic := by
  simp [create_fallback_node]

/-- C10: the node is stored under its own turn id before the targets are
scanned, so a targets list containing the own turn id passes the
existence check and a self-loop edge is appended — even when no node for
that turn id existed beforehand. -/
theorem C10_self_loop_edge
    (m : ArgumentMapper) (node : ArgumentNode) (targets : List Int)
    (now : String) (hmem : node.turn_id ∈ targets)
    (_hnew : dictMem node.turn_id m.nodes = false) :
    ({ source_id := node.turn_id, target_id := node.turn_id,
       type := node.type, timestamp := now } : ArgumentEdge)
      ∈ (add_node_and_edges m node targets now).edges := by
  unfold add_node_and_edges
  refine List.mem_append_right _ (List.mem_filterMap.mpr ⟨node.turn_id, hmem, ?_⟩)
  rw [if_pos]
  exact dictMem_dictInsert_self node.turn_id node m.nodes

/-- The concrete node used by the C10 witness. -/
def nodeW10 : ArgumentNode :=
  { turn_id := 3, type := .counter, summary := "s", speaker := "alice",
    topic := none, timestamp := "t" }

/-- Witness for C10: a response for turn 3 targeting turn 3 itself. -/
theorem C10_self_loop_edge_witness :
    ({ source_id := 3, target_id := 3, type := ArgumentType.counter,
       timestamp := "t" } : ArgumentEdge)
      ∈ (add_node_and_edges initMapper nodeW10 [3] "t").edges :=
  C10_self_loop_edge initMapper nodeW10 [3] "t" (by decide) rfl

/-! ### Helpers for C4 -/

theorem typeInvalid_set_targets (a : RawAnalysis) (x : Option TargetsVal) :
    typeInvalid { a with targetsField := x } = typeInvalid a := rfl

theorem argumentTypeOfString_of_valid (t : String)
    (h : argumentTypeValues.contains t = true) :
    ∃ ty, argumentTypeOfString t = some ty := by
  simp [argumentTypeValues] at h
  rcases h with h | h | h | h <;> subst h <;> exact ⟨_, rfl⟩

/-- C4: the validator returns the confidence read from the response,
multiplied by 0.8 when the targets field is present but not a list
(coerced to the empty list), and by a further 0.8 when the type field is
missing or unrecognized (coerced to `claim`); the two penalties compose
multiplicatively on the same response, and a response whose targets were
coerced away contributes zero edges to the graph. -/
theorem C4_validation_penalties (a : RawAnalysis) (q : ℚ)
    (hconf : a.confidenceField = some (.num q)) :
    validate_analysis a = .ok
      (q * (if targetsNotList a then (0.8 : ℚ) else 1)
         * (if typeInvalid a then (0.8 : ℚ) else 1),
       { a with
          targetsField :=
            if targetsNotList a then some (.list []) else a.targetsField,
          typeField :=
            if typeInvalid a then some "claim" else a.typeField }) ∧
    (targetsNotList a = true →
      ∀ (m : ArgumentMapper) (turn_id : Int) (message speaker now : String),
        (analyze_message m turn_id message speaker (.ok a) now).1.edges
          = m.edges) := by
  have hval : validate_analysis a = .ok
      (q * (if targetsNotList a then (0.8 : ℚ) else 1)
         * (if typeInvalid a then (0.8 : ℚ) else 1),
       { a with
          targetsField :=
            if targetsNotList a then some (.list []) else a.targetsField,
          typeField :=
            if typeInvalid a then some "claim" else a.typeField }) := by
    have hpc : parseConfidence a.confidenceField = .ok q := by
      rw [hconf]; rfl
    unfold validate_analysis
    rw [hpc]
    by_cases ht : targetsNotList a
    · have hti : typeInvalid { a with targetsField := some (.list []) }
          = typeInvalid a := typeInvalid_set_targets a _
      by_cases hy : typeInvalid a
      · simp [ht, hti, hy]
      · simp [ht, hti, hy]
    · by_cases hy : typeInvalid a
      · simp [ht, hy]
      · simp [ht, hy]
  refine ⟨hval, ?_⟩
  intro ht m turn_id message speaker now
  simp only [analyze_message]
  rw [hval]
  by_cases hy : typeInvalid a
  · simp [ht, hy, add_node_and_edges, targetsOf, argumentTypeOfString]
  · obtain ⟨t, htf, hcont⟩ : ∃ t, a.typeField = some t ∧
        argumentTypeValues.contains t = true := by
      unfold typeInvalid at hy
      cases htf : a.typeField with
      | none => rw [htf] at hy; simp at hy
      | some t =>
          rw [htf] at hy
          simp at hy
          exact ⟨t, rfl, by simpa using hy⟩
    obtain ⟨ty, hty⟩ := argumentTypeOfString_of_valid t hcont
    simp [ht, hy, htf, hty, add_node_and_edges, targetsOf]

/-- The concrete malformed response used by the C4 witness: confidence
0.9, a non-list targets field, and an unrecognized type. -/
def rawW4 : RawAnalysis :=
  { typeField := some "rebuttal", summaryField := some "sum",
    targetsField := some .notList, topicField := none,
    confidenceField := some (.num (9/10)) }

/-- Witness for C4: both penalties apply, giving 0.9 × 0.8 × 0.8. -/
theorem C4_validation_penalties_witness :
    (validate_analysis rawW4 = .ok
      ((9/10 : ℚ) * (if targetsNotList rawW4 then (0.8 : ℚ) else 1)
         * (if typeInvalid rawW4 then (0.8 : ℚ) else 1),
       { rawW4 with
          targetsField :=
            if targetsNotList rawW4 then some (.list []) else rawW4.targetsField,
          typeField :=
            if typeInvalid rawW4 then some "claim" else rawW4.typeField }) ∧
    (targetsNotList rawW4 = true →
      ∀ (m : ArgumentMapper) (turn_id : Int) (message speaker now : String),
        (analyze_message m turn_id message speaker (.ok rawW4) now).1.edges
          = m.edges)) :=
  C4_validation_penalties rawW4 (9/10) rfl

/-! ### Helpers for C2 -/

theorem runSubmissions_ids (subs : List (String × String × String)) :
    ∀ s : Session,
      (runSubmissions subs s).transcripts.map Transcript.turn_id
        = s.transcripts.map Transcript.turn_id
            ++ List.range' (s.last_turn_id + 1) subs.length ∧
      (runSubmissions subs s).last_turn_id = s.last_turn_id + subs.length := by
  induction subs with
  | nil => intro s; simp [runSubmissions]
  | cons hd tl ih =>
      intro s
      have step : runSubmissions (hd :: tl) s
          = runSubmissions tl (appendTurn s hd.1 hd.2.1 hd.2.2).1 := rfl
      rw [step]
      obtain ⟨h1, h2⟩ := ih (appendTurn s hd.1 hd.2.1 hd.2.2).1
      constructor
      · rw [h1]
        simp only [appendTurn, List.map_append, List.map_cons, List.map_nil,
          List.length_cons, List.append_assoc, List.singleton_append]
        rw [List.range'_succ]
      · rw [h2]
        simp only [appendTurn, List.length_cons]
        omega

/-- C2: starting from a fresh session, any sequence of N turn
submissions (text or audio — both endpoints allocate ids the same way)
yields transcript turn ids exactly 1..N in call order, with
`last_turn_id` equal to the number of appended turns, which equals the
transcript length; the transcript list grows by appending only. -/
theorem C2_dense_turn_ids (subs : List (String × String × String)) (now0 : ℚ) :
    (runSubmissions subs (initSession now0)).transcripts.map Transcript.turn_id
      = List.range' 1 subs.length ∧
    (runSubmissions subs (initSession now0)).last_turn_id = subs.length ∧
    (runSubmissions subs (initSession now0)).transcripts.length
      = subs.length := by
  obtain ⟨h1, h2⟩ := runSubmissions_ids subs (initSession now0)
  refine ⟨?_, ?_, ?_⟩
  · simpa [initSession] using h1
  · simpa [initSession] using h2
  · have hlen := congrArg List.length h1
    simpa [initSession] using hlen

/-! ### Helpers for C3 -/

/-- One invocation of the public mutator `analyze_message`, with all its
inputs. -/
structure AnalyzeCall where
  turn_id : Int
  message : String
  speaker : String
  callResult : Except Unit RawAnalysis
  now : String

/-- The state transition of one `analyze_message` call. -/
def applyAnalyze (m : ArgumentMapper) (c : AnalyzeCall) : ArgumentMapper :=
  (analyze_message m c.turn_id c.message c.speaker c.callResult c.now).1

/-- The mapper state reached from a fresh mapper by a call sequence. -/
def runAnalyzeCalls (cs : List AnalyzeCall) : ArgumentMapper :=
  cs.foldl applyAnalyze initMapper

/-- Every edge of the graph points at a key of the nodes dict. -/
def edgesClosed (m : ArgumentMapper) : Prop :=
  ∀ e ∈ m.edges, dictMem e.target_id m.nodes = true

theorem add_node_and_edges_edges_spec (m : ArgumentMapper)
    (node : ArgumentNode) (targets : List Int) (now : String) :
    ∃ delta, (add_node_and_edges m node targets now).edges = m.edges ++ delta ∧
      ∀ e ∈ delta,
        dictMem e.target_id (add_node_and_edges m node targets now).nodes
          = true := by
  refine ⟨_, rfl, ?_⟩
  intro e he
  rw [List.mem_filterMap] at he
  obtain ⟨t, _ht, hsome⟩ := he
  by_cases hd : dictMem t (dictInsert node.turn_id node m.nodes) = true
  · rw [if_pos hd] at hsome
    cases hsome
    simpa [add_node_and_edges] using hd
  · rw [if_neg hd] at hsome
    cases hsome

theorem applyAnalyze_edges_spec (m : ArgumentMapper) (c : AnalyzeCall) :
    ∃ delta, (applyAnalyze m c).edges = m.edges ++ delta ∧
      ∀ e ∈ delta, dictMem e.target_id (applyAnalyze m c).nodes = true := by
  unfold applyAnalyze analyze_message
  cases hc : c.callResult with
  | error e => exact ⟨[], by simp [create_fallback_node], by simp⟩
  | ok a =>
      cases hv : validate_analysis a with
      | error e =>
          refine ⟨[], ?_, by simp⟩
          simp only [hv]
          simp [create_fallback_node]
      | ok p =>
          obtain ⟨conf, a1⟩ := p
          simp only [hv]
          cases hty : argumentTypeOfString (a1.typeField.getD "claim") with
          | none =>
              refine ⟨[], ?_, by simp⟩
              simp only [hty]
              simp [create_fallback_node]
          | some ty =>
              simp only [hty]
              exact add_node_and_edges_edges_spec m _ (targetsOf a1) c.now

theorem applyAnalyze_nodes_mono (m : ArgumentMapper) (c : AnalyzeCall)
    (k : Int) (h : dictMem k m.nodes = true) :
    dictMem k (applyAnalyze m c).nodes = true := by
  unfold applyAnalyze analyze_message
  cases hc : c.callResult with
  | error e => simpa using dictMem_dictInsert_of_mem k _ _ _ h
  | ok a =>
      cases hv : validate_analysis a with
      | error e =>
          simp only [hv]
          simpa using dictMem_dictInsert_of_mem k _ _ _ h
      | ok p =>
          obtain ⟨conf, a1⟩ := p
          simp only [hv]
          cases hty : argumentTypeOfString (a1.typeField.getD "claim") with
          | none =>
              simp only [hty]
              simpa using dictMem_dictInsert_of_mem k _ _ _ h
          | some ty =>
              simp only [hty]
              simpa [add_node_and_edges] using
                dictMem_dictInsert_of_mem k _ _ _ h

theorem foldl_applyAnalyze_closed (cs : List AnalyzeCall) :
    ∀ m : ArgumentMapper, edgesClosed m →
      edgesClosed (cs.foldl applyAnalyze m) := by
  induction cs with
  | nil => intro m h; simpa [edgesClosed] using h
  | cons c tl ih =>
      intro m h
      apply ih
      obtain ⟨delta, heq, hdelta⟩ := applyAnalyze_edges_spec m c
      intro e he
      rw [heq] at he
      rcases List.mem_append.mp he with h1 | h2
      · exact applyAnalyze_nodes_mono m c _ (h e h1)
      · exact hdelta e h2

/-- C3: in every state reachable by `analyze_message` calls from a fresh
mapper, one further call only ever appends edges (never removes any),
each appended edge has a target id that is a key of the nodes dict at the
moment of its creation (targets with no node are silently dropped by the
total `filterMap`, never an error), and every edge of the reachable state
points at an existing node. -/
theorem C3_edge_targets_exist (cs : List AnalyzeCall) (c : AnalyzeCall) :
    (∃ delta,
        (applyAnalyze (runAnalyzeCalls cs) c).edges
          = (runAnalyzeCalls cs).edges ++ delta ∧
        ∀ e ∈ delta,
          dictMem e.target_id (applyAnalyze (runAnalyzeCalls cs) c).nodes
            = true) ∧
    edgesClosed (runAnalyzeCalls cs) :=
  ⟨applyAnalyze_edges_spec (runAnalyzeCalls cs) c,
   foldl_applyAnalyze_closed cs initMapper (by intro e he; simp [initMapper] at he)⟩

/-! ### C5: broadcast fan-out -/

/-- C5: when the topic is registered with K subscriber queues, one
`broadcast_to_session` call appends exactly one copy of the (normalized)
event to each of the K queues, preserving the subscription (list) order,
and leaves every other topic untouched; an unregistered topic, and a
registered topic with zero subscribers, drop the message with no state
change — the function is total, so it never raises. -/
theorem C5_broadcast_fanout (mgr : SessionManager) (session_id : String)
    (data : EventData) :
    (∀ queues, mgr.session_queues session_id = some queues →
      ∃ queues1,
        (broadcast_to_session mgr session_id data).session_queues session_id
          = some queues1 ∧
        queues1.length = queues.length ∧
        (∀ i : Nat, queues1[i]?
            = (queues[i]?).map (fun q => q ++ [stripTimestamp data])) ∧
        (∀ t, t ≠ session_id →
          (broadcast_to_session mgr session_id data).session_queues t
            = mgr.session_queues t)) ∧
    (mgr.session_queues session_id = none →
      broadcast_to_session mgr session_id data = mgr) ∧
    (mgr.session_queues session_id = some [] →
      broadcast_to_session mgr session_id data = mgr) := by
  refine ⟨?_, ?_, ?_⟩
  · intro queues hq
    refine ⟨queues.map (fun q => q ++ [stripTimestamp data]), ?_, by simp, ?_, ?_⟩
    · unfold broadcast_to_session
      simp only [hq]
      simp
    · intro i
      simp
    · intro t ht
      unfold broadcast_to_session
      simp only [hq]
      simp [ht]
  · intro hq
    unfold broadcast_to_session
    simp only [hq]
  · intro hq
    unfold broadcast_to_session
    simp only [hq]
    cases mgr with
    | mk act sq arch =>
        simp only at hq
        simp only [SessionManager.mk.injEq, and_true, true_and]
        funext t
        by_cases ht : t = session_id
        · subst ht; simp [hq]
        · simp [ht]

/-- Concrete hub state for the C5 witness: topic `s` has two subscriber
queues, the second already holding one message. -/
def mgr5 : SessionManager :=
  { active_sessions := [],
    session_queues := fun t =>
      if t = "s" then some [[], [[("a", "b")]]]
      else if t = "e" then some []
      else none,
    archives := fun _ => none }

/-- The C5 witness event, carrying a top-level timestamp to strip. -/
def d5 : EventData := [("type", "transcript"), ("timestamp", "x")]

/-- Witness for C5: fan-out to two queues, an unknown topic, and a
registered topic with zero subscribers. -/
theorem C5_broadcast_fanout_witness :
    (∃ queues1,
      (broadcast_to_session mgr5 "s" d5).session_queues "s" = some queues1 ∧
      queues1.length = ([[], [[("a", "b")]]] : List ClientQueue).length ∧
      (∀ i : Nat, queues1[i]?
          = (([[], [[("a", "b")]]] : List ClientQueue)[i]?).map
              (fun q => q ++ [stripTimestamp d5])) ∧
      (∀ t, t ≠ "s" →
        (broadcast_to_session mgr5 "s" d5).session_queues t
          = mgr5.session_queues t)) ∧
    broadcast_to_session mgr5 "zz" d5 = mgr5 ∧
    broadcast_to_session mgr5 "e" d5 = mgr5 :=
  ⟨(C5_broadcast_fanout mgr5 "s" d5).1 [[], [[("a", "b")]]] (by simp [mgr5]),
   (C5_broadcast_fanout mgr5 "zz" d5).2.1 (by simp [mgr5]),
   (C5_broadcast_fanout mgr5 "e" d5).2.2 (by simp [mgr5])⟩

/-! ### C6: session removal and queue closure -/

theorem lookupSession_erase_self (k : String) (d : List (String × Session)) :
    lookupSession (dictEraseSession k d) k = none := by
  induction d with
  | nil => rfl
  | cons kv tl ih =>
      simp only [dictEraseSession, List.filter_cons] at *
      by_cases hk : kv.1 = k
      · simpa [hk] using ih
      · simpa [hk, lookupSession] using ih

/-- The behavior C6 claims of queue closure: during `remove_session`,
every subscriber queue of the removed session receives one more message
(the close sentinel). -/
def removalPushesSentinel : Prop :=
  ∀ (mgr : SessionManager) (session_id : String)
    (st : SessionManager × List ClientQueue),
    remove_session mgr session_id true = .ok st →
    lookupSession mgr.active_sessions session_id ≠ none →
    ∀ i : Nat, ∀ q,
      ((mgr.session_queues session_id).getD [])[i]? = some q →
      ∃ q1, st.2[i]? = some q1 ∧ q1.length = q.length + 1

/-- The session used in the C6 instances. -/
def sess6 : Session := initSession 0

/-- Registry state for C6: one live session `s` with one (empty)
subscriber queue. -/
def mgr6 : SessionManager :=
  { active_sessions := [("s", sess6)],
    session_queues := fun t => if t = "s" then some [[]] else none,
    archives := fun _ => none }

/-- C6 counterexample: removing session `s` from `mgr6` drops its only
subscriber queue with its contents unchanged (still empty) — no close
sentinel is ever pushed, refuting the claimed closure behavior. -/
theorem C6_no_sentinel_counterexample : ¬ removalPushesSentinel := by
  intro h
  obtain ⟨st, hst, hq⟩ :
      ∃ st, remove_session mgr6 "s" true = .ok st ∧ st.2 = [[]] :=
    ⟨_, rfl, rfl⟩
  have h3 := h mgr6 "s" st hst
    (by simp [mgr6, lookupSession, sess6]) 0 [] (by simp [mgr6])
  obtain ⟨q1, hq1, hlen⟩ := h3
  rw [hq] at hq1
  simp at hq1
  rw [hq1] at hlen
  simp at hlen

/-- C6 (amended): for a registered id, `remove_session` archives the
full session state, evicts the id from the live map, and deletes its
queue-registry entry; the dropped queues are handed back to their
consumers with contents exactly as they were — no close sentinel is
pushed into them.  Other sessions, topics and archive entries are
untouched.  An unregistered id is a silent no-op with no state change. -/
theorem C6_remove_session_behavior (mgr : SessionManager)
    (session_id : String) :
    (∀ sess, lookupSession mgr.active_sessions session_id = some sess →
      ∃ st, remove_session mgr session_id true = .ok st ∧
        st.1.archives session_id = some sess ∧
        lookupSession st.1.active_sessions session_id = none ∧
        st.1.session_queues session_id = none ∧
        st.2 = (mgr.session_queues session_id).getD [] ∧
        (∀ t, t ≠ session_id →
          st.1.session_queues t = mgr.session_queues t ∧
          st.1.archives t = mgr.archives t) ∧
        (∀ kv ∈ mgr.active_sessions, kv.1 ≠ session_id →
          kv ∈ st.1.active_sessions)) ∧
    (lookupSession mgr.active_sessions session_id = none →
      remove_session mgr session_id true = .ok (mgr, [])) := by
  constructor
  · intro sess hs
    unfold remove_session
    simp only [hs, if_true]
    refine ⟨_, rfl, by simp, ?_, by simp, rfl, ?_, ?_⟩
    · exact lookupSession_erase_self session_id mgr.active_sessions
    · intro t ht
      constructor <;> simp [ht]
    · intro kv hmem hne
      exact List.mem_filter.mpr ⟨hmem, by simpa using hne⟩
  · intro hs
    unfold remove_session
    simp only [hs]

/-- Witness for C6 (amended): the registered id `s` of `mgr6`, and the
unregistered id `zz`. -/
theorem C6_remove_session_behavior_witness :
    (∃ st, remove_session mgr6 "s" true = .ok st ∧
        st.1.archives "s" = some sess6 ∧
        lookupSession st.1.active_sessions "s" = none ∧
        st.1.session_queues "s" = none ∧
        st.2 = (mgr6.session_queues "s").getD [] ∧
        (∀ t, t ≠ "s" →
          st.1.session_queues t = mgr6.session_queues t ∧
          st.1.archives t = mgr6.archives t) ∧
        (∀ kv ∈ mgr6.active_sessions, kv.1 ≠ "s" →
          kv ∈ st.1.active_sessions)) ∧
    remove_session mgr6 "zz" true = .ok (mgr6, []) :=
  ⟨(C6_remove_session_behavior mgr6 "s").1 sess6
      (by simp [mgr6, lookupSession, sess6]),
   (C6_remove_session_behavior mgr6 "zz").2
      (by simp [mgr6, lookupSession, sess6])⟩

/-! ### C7: the inactivity sweep and archive failures -/

theorem lookupSession_erase_ne (k f : String) (d : List (String × Session))
    (h : k ≠ f) :
    lookupSession (dictEraseSession k d) f = lookupSession d f := by
  induction d with
  | nil => rfl
  | cons kv tl ih =>
      simp only [dictEraseSession, List.filter_cons] at *
      by_cases hk : kv.1 = k
      · have hkf : ¬ kv.1 = f := by rw [hk]; exact h
        rw [if_neg (by simp [hk]), ih]
        simp only [lookupSession]
        rw [if_neg hkf]
      · by_cases hf : kv.1 = f
        · rw [if_pos (by simp [hk])]
          simp only [lookupSession]
          rw [if_pos hf, if_pos hf]
        · rw [if_pos (by simp [hk])]
          simp only [lookupSession]
          rw [if_neg hf, if_neg hf]
          exact ih

theorem lookupSession_append_self (l1 l2 : List (String × Session))
    (f : String) (sf : Session) :
    lookupSession (l1 ++ (f, sf) :: l2) f ≠ none := by
  induction l1 with
  | nil => simp [lookupSession]
  | cons kv tl ih =>
      simp only [List.cons_append, lookupSession]
      by_cases hk : kv.1 = f
      · simp [hk]
      · simpa [hk] using ih

/-- The behavior C7 claims of the sweep: an archive failure on one
inactive session does not prevent a later-enumerated inactive session
(whose own archive succeeds) from being removed in the same tick. -/
def sweepIsolatesFailures : Prop :=
  ∀ (archiveOk : String → Bool) (now : ℚ) (mgr : SessionManager)
    (sid : String) (sess : Session),
    (sid, sess) ∈ mgr.active_sessions →
    sess.is_inactive now = true →
    archiveOk sid = true →
    lookupSession (cleanup_tick archiveOk now mgr).active_sessions sid = none

/-- A session that is inactive at instant 1000: no clients, no
participants, last activity at 0 (elapsed 1000 s > 5 min). -/
def sessInact : Session := initSession 0

/-- Registry with two inactive sessions `a` and `b`. -/
def mgr7 : SessionManager :=
  { active_sessions := [("a", sessInact), ("b", sessInact)],
    session_queues := fun _ => none,
    archives := fun _ => none }

/-- Archival fails for session `a` only. -/
def archiveOk7 : String → Bool := fun t => t != "a"

theorem sessInact_is_inactive : sessInact.is_inactive 1000 = true := by
  simp only [Session.is_inactive, sessInact, initSession, INACTIVE_SESSION_TIMEOUT]
  norm_num

/-- C7 counterexample: in `mgr7`, the archive failure on `a` (enumerated
first) aborts the tick, so the inactive session `b` — whose own archive
would succeed — is still live after the tick, refuting the claimed
per-session isolation. -/
theorem C7_sweep_abort_counterexample : ¬ sweepIsolatesFailures := by
  intro h
  have h2 := h archiveOk7 1000 mgr7 "b" sessInact
    (by simp [mgr7]) sessInact_is_inactive (by decide)
  have heval : cleanup_tick archiveOk7 1000 mgr7 = mgr7 := by
    unfold cleanup_tick
    show cleanupSweep archiveOk7 1000 [("a", sessInact), ("b", sessInact)] mgr7
        = mgr7
    unfold cleanupSweep
    rw [if_pos (by simpa using sessInact_is_inactive)]
    have hao : archiveOk7 "a" = false := by decide
    rw [hao]
    unfold remove_session
    have hl : lookupSession mgr7.active_sessions "a" = some sessInact := by
      simp [mgr7, lookupSession]
    rw [hl]
    simp
  rw [heval] at h2
  simp [mgr7, lookupSession] at h2

theorem cleanupSweep_append_abort (archiveOk : String → Bool) (now : ℚ)
    (l1 : List (String × Session)) (f : String) (sf : Session)
    (l2 : List (String × Session)) :
    ∀ mgr : SessionManager,
      (∀ p ∈ l1, p.2.is_inactive now = true → archiveOk p.1 = true) →
      sf.is_inactive now = true →
      archiveOk f = false →
      (∀ p ∈ l1, p.1 ≠ f) →
      lookupSession mgr.active_sessions f ≠ none →
      cleanupSweep archiveOk now (l1 ++ (f, sf) :: l2) mgr
        = cleanupSweep archiveOk now l1 mgr := by
  induction l1 with
  | nil =>
      intro mgr _h1 h2 h3 _h5 h4
      simp only [List.nil_append]
      unfold cleanupSweep
      rw [if_pos (by simpa using h2)]
      cases hl : lookupSession mgr.active_sessions f with
      | none => exact absurd hl h4
      | some sess =>
          unfold remove_session
          rw [hl, h3]
          simp
  | cons p tl ih =>
      intro mgr h1 h2 h3 h5 h4
      obtain ⟨sid, s⟩ := p
      simp only [List.cons_append]
      unfold cleanupSweep
      by_cases hin : s.is_inactive now = true
      · rw [if_pos (by simpa using hin), if_pos (by simpa using hin)]
        have hok : archiveOk sid = true := h1 (sid, s) (by simp) hin
        cases hl : lookupSession mgr.active_sessions sid with
        | none =>
            unfold remove_session
            rw [hl]
            exact ih mgr (fun p hp => h1 p (by simp [hp]))
              h2 h3 (fun p hp => h5 p (by simp [hp])) h4
        | some sess =>
            unfold remove_session
            rw [hl, hok]
            simp only [if_true]
            apply ih _ (fun p hp => h1 p (by simp [hp])) h2 h3
              (fun p hp => h5 p (by simp [hp]))
            have hne : sid ≠ f := h5 (sid, s) (by simp)
            simp only []
            rw [lookupSession_erase_ne sid f mgr.active_sessions hne]
            exact h4
      · rw [if_neg (by simpa using hin), if_neg (by simpa using hin)]
        exact ih mgr (fun p hp => h1 p (by simp [hp])) h2 h3
          (fun p hp => h5 p (by simp [hp])) h4

/-- C7 (amended): when the tick enumeration is `l1 ++ (f, sf) :: l2`
with every inactive session of `l1` archiving successfully, `sf`
inactive and its archive failing, the whole tick behaves exactly as a
sweep over `l1` alone: the exception aborts the scan of everything after
`f` in that tick (those sessions stay untouched), while the tick itself
— being a total function — propagates no exception, so the sweep loop
survives to retry on later ticks. -/
theorem C7_sweep_tick_abort (archiveOk : String → Bool) (now : ℚ)
    (mgr : SessionManager) (l1 : List (String × Session)) (f : String)
    (sf : Session) (l2 : List (String × Session))
    (hact : mgr.active_sessions = l1 ++ (f, sf) :: l2)
    (h1 : ∀ p ∈ l1, p.2.is_inactive now = true → archiveOk p.1 = true)
    (h2 : sf.is_inactive now = true)
    (h3 : archiveOk f = false)
    (h5 : ∀ p ∈ l1, p.1 ≠ f) :
    cleanup_tick archiveOk now mgr = cleanupSweep archiveOk now l1 mgr := by
  have h4 : lookupSession mgr.active_sessions f ≠ none := by
    rw [hact]
    exact lookupSession_append_self l1 l2 f sf
  unfold cleanup_tick
  rw [hact]
  exact cleanupSweep_append_abort archiveOk now l1 f sf l2 mgr h1 h2 h3 h5 h4

/-- Registry for the C7 witness: inactive `a` (archives fine), inactive
`b` (archive fails), inactive `c` enumerated after the failure. -/
def mgr7w : SessionManager :=
  { active_sessions := [("a", sessInact), ("b", sessInact), ("c", sessInact)],
    session_queues := fun _ => none,
    archives := fun _ => none }

/-- Archival fails for session `b` only. -/
def archiveOk7w : String → Bool := fun t => t != "b"

/-- Witness for C7 (amended): the tick over `mgr7w` equals the sweep
over the prefix `[("a", sessInact)]` alone. -/
theorem C7_sweep_tick_abort_witness :
    cleanup_tick archiveOk7w 1000 mgr7w
      = cleanupSweep archiveOk7w 1000 [("a", sessInact)] mgr7w :=
  C7_sweep_tick_abort archiveOk7w 1000 mgr7w [("a", sessInact)] "b" sessInact
    [("c", sessInact)] rfl
    (by
      intro p hp _h
      simp only [List.mem_singleton] at hp
      rw [hp]
      decide)
    sessInact_is_inactive (by decide)
    (by
      intro p hp
      simp only [List.mem_singleton] at hp
      rw [hp]
      decide)

/-! ### C9: anchor addition -/

/-- The behavior C9 claims of `add_anchor`: the target turn id is
validated against the transcript — the stamped anchor is appended when
the turn exists, and the add is rejected (session unchanged) when it
does not. -/
def addAnchorValidates : Prop :=
  ∀ (s : Session) (d : AnchorData) (now : String),
    (anchorTurnExists s d.turnId = true →
      (Session.add_anchor s d now).1.anchors
        = s.anchors ++ [stampedAnchor d now]) ∧
    (anchorTurnExists s d.turnId = false →
      (Session.add_anchor s d now).1 = s)

/-- The session of the C9 counterexample: fresh, with no transcript. -/
def sess9 : Session := initSession 0

/-- The C9 anchor request, targeting the nonexistent turn 5. -/
def d9 : AnchorData :=
  { position := 0, length := 3, word := "foo", turnId := 5, userId := "u" }

/-- C9 counterexample: adding an anchor for turn 5 to a session with an
empty transcript still appends the anchor — `add_anchor` performs no
turn-existence validation, refuting the claimed rejection. -/
theorem C9_no_validation_counterexample : ¬ addAnchorValidates := by
  intro h
  have h2 := (h sess9 d9 "t").2 (by decide)
  have h3 : (Session.add_anchor sess9 d9 "t").1.anchors
      = [stampedAnchor d9 "t"] := rfl
  rw [h2] at h3
  simp [sess9, initSession] at h3

/-- C9 (amended): `add_anchor` stamps the anchor with the creation
timestamp and appends it to the anchor list unconditionally — no
validation that the target turn id exists happens anywhere on the path
(the API layer checks only that the session exists and the pydantic
shape bounds) — and every other session field is unchanged. -/
theorem C9_add_anchor_appends (s : Session) (d : AnchorData) (now : String) :
    (Session.add_anchor s d now).1.anchors
      = s.anchors ++ [stampedAnchor d now] ∧
    (Session.add_anchor s d now).2 = stampedAnchor d now ∧
    (stampedAnchor d now).timestamp = now ∧
    (Session.add_anchor s d now).1.transcripts = s.transcripts ∧
    (Session.add_anchor s d now).1.last_turn_id = s.last_turn_id := by
  simp [Session.add_anchor, stampedAnchor]

end Reasonance
